import Mathlib

/-!
Shallow embedding of the adaptive multi-provider model request router of this
repository, centred on `backend/services/mama_bear_model_manager.py`
(`MamaBearModelManager`) and, for the exponential-backoff cooldown, on
`files-research/mama-bear-quota-manager.py` (`MamaBearQuotaManager`).

Modelling conventions:
* wall-clock instants (`datetime.now()`) are `Nat` seconds; calendar dates
  (`.date()`) become `dateOf t = t / 86400`;
* Python `timedelta.seconds` is the seconds component of a delta, i.e.
  `(now - t) % 86400` for a non-negative delta; the embedding assumes stored
  timestamps are not in the future (they are produced by earlier `now`s);
* `defaultdict` maps become association lists with an explicit default; the
  transport call (`genai` SDK) is an opaque function returning text or an
  error message; logging and file I/O are side effects outside the model;
* the `api_key` configuration field (environment-dependent I/O) and the
  float-valued `average_response_time` statistic are not modelled; no claim
  mentions them.
-/

namespace MamaBear

/-! ### String helpers (Python `in` substring test and `.lower()`) -/

/-- ASCII lower-casing of one character, as Python `.lower()` acts on the
ASCII strings used by the router. -/
def lowerChar (c : Char) : Char :=
  if 65 ≤ c.toNat ∧ c.toNat ≤ 90 then Char.ofNat (c.toNat + 32) else c

/-- `s.lower()` on ASCII strings. -/
def lowerStr (s : String) : String := ⟨s.toList.map lowerChar⟩

/-- `leadsWith pat txt` is true when `txt` starts with `pat`. -/
def leadsWith : List Char → List Char → Bool
  | [], _ => true
  | _ :: _, [] => false
  | p :: ps, t :: ts => p = t && leadsWith ps ts

/-- `containsChars pat txt` is true when `pat` occurs contiguously in `txt`. -/
def containsChars (pat : List Char) : List Char → Bool
  | [] => leadsWith pat []
  | t :: ts => leadsWith pat (t :: ts) || containsChars pat ts

/-- Python `sub in s` substring test. -/
def strContains (s sub : String) : Bool := containsChars sub.toList s.toList

/-- Calendar date of an instant (`datetime.date()`), as a day number. -/
def dateOf (t : Nat) : Nat := t / 86400

/-! ### Association-list maps with defaults (Python `defaultdict`) -/

/-- Lookup of a key in an association list. -/
def lookupH {α : Type} : List (String × α) → String → Option α
  | [], _ => none
  | (n, v) :: rest, name => if n = name then some v else lookupH rest name

/-- Write a key (replacing an existing binding, inserting otherwise). -/
def setEntry {α : Type} : List (String × α) → String → α → List (String × α)
  | [], name, v => [(name, v)]
  | (n, w) :: rest, name, v =>
      if n = name then (name, v) :: rest else (n, w) :: setEntry rest name v

/-- Read with a default, the observable behaviour of `defaultdict.__getitem__`. -/
def getEntryD {α : Type} (m : List (String × α)) (d : α) (name : String) : α :=
  (lookupH m name).getD d

theorem lookupH_setEntry {α : Type} (m : List (String × α)) (n : String) (v : α)
    (n' : String) :
    lookupH (setEntry m n v) n' = if n' = n then some v else lookupH m n' := by
  induction m with
  | nil =>
    by_cases h : n' = n
    · subst h; simp [setEntry, lookupH]
    · simp [setEntry, lookupH, h, Ne.symm h]
  | cons p rest ih =>
    obtain ⟨n0, w⟩ := p
    by_cases h0 : n0 = n
    · subst h0
      by_cases h : n' = n0
      · subst h; simp [setEntry, lookupH]
      · simp [setEntry, lookupH, h, Ne.symm h]
    · by_cases h : n' = n
      · subst h
        simp [setEntry, lookupH, h0, ih]
      · simp [setEntry, lookupH, h0, ih, h]

theorem getEntryD_setEntry {α : Type} (m : List (String × α)) (d : α) (n : String)
    (v : α) (n' : String) :
    getEntryD (setEntry m n v) d n' = if n' = n then v else getEntryD m d n' := by
  unfold getEntryD
  rw [lookupH_setEntry]
  split <;> rfl

theorem getEntryD_of_lookupH {α : Type} {m : List (String × α)} {d : α}
    {n : String} {v : α} (h : lookupH m n = some v) : getEntryD m d n = v := by
  unfold getEntryD
  rw [h]
  rfl

theorem lookupH_of_nodup {α : Type} :
    ∀ (m : List (String × α)), (m.map Prod.fst).Nodup →
      ∀ (n : String) (v : α), (n, v) ∈ m → lookupH m n = some v := by
  intro m
  induction m with
  | nil => intro _ n v h; simp at h
  | cons p rest ih =>
    intro hnd n v hmem
    obtain ⟨n0, w⟩ := p
    rcases List.mem_cons.mp hmem with heq | hrest
    · cases heq
      simp [lookupH]
    · rw [List.map_cons] at hnd
      have hcons := List.nodup_cons.mp hnd
      have hne : n0 ≠ n := by
        intro he
        subst he
        exact hcons.1 (List.mem_map.mpr ⟨(n0, v), hrest, rfl⟩)
      simp [lookupH, hne, ih hcons.2 n v hrest]

/-! ### Data model (`ModelStatus`, `ModelConfig`, `ModelHealth`) -/

/-- `ModelStatus` enum from the model manager. -/
inductive ModelStatus : Type
  | available
  | quota_exceeded
  | rate_limited
  | error
  | offline
  deriving DecidableEq

/-- `ModelConfig` dataclass (the `api_key` environment field is elided). -/
structure ModelConfig : Type where
  name : String
  billing_account : Nat
  priority : Nat
  rate_limit : Nat
  daily_quota : Nat
  capabilities : List String
  deriving DecidableEq

/-- `ModelHealth` dataclass. -/
structure ModelHealth : Type where
  status : ModelStatus
  last_success : Nat
  error_count : Nat
  quota_used_today : Nat
  rate_limit_reset : Nat
  last_error : Option String
  deriving DecidableEq

abbrev HealthMap : Type := List (String × ModelHealth)

abbrev HistMap : Type := List (String × List Nat)

/-- The `defaultdict` default of `model_health`, built at process start `t0`. -/
def defaultHealth (t0 : Nat) : ModelHealth :=
  ⟨ModelStatus.available, t0, 0, 0, t0, none⟩

/-- `self.model_health[name]` (defaultdict read). -/
def getHealth (m : HealthMap) (t0 : Nat) (name : String) : ModelHealth :=
  getEntryD m (defaultHealth t0) name

/-- `self.request_history[name]` (defaultdict read, default empty list). -/
def getHist (m : HistMap) (name : String) : List Nat :=
  getEntryD m [] name

theorem getHealth_setEntry (m : HealthMap) (t0 : Nat) (n : String) (v : ModelHealth)
    (n' : String) :
    getHealth (setEntry m n v) t0 n' = if n' = n then v else getHealth m t0 n' :=
  getEntryD_setEntry m (defaultHealth t0) n v n'

/-! ### Candidate registry (`_initialize_models`) -/

/-- Stable sort ascending by an integer key, the behaviour of Python
`sorted(..., key=...)`. -/
def insertLe {α : Type} (key : α → Int) (x : α) : List α → List α
  | [] => [x]
  | y :: ys => if key y ≤ key x then y :: insertLe key x ys else x :: y :: ys

def sortByKey {α : Type} (key : α → Int) (l : List α) : List α :=
  l.foldl (fun acc x => insertLe key x acc) []

/-- Python `enumerate`, starting at index `i`. -/
def enumerate {α : Type} (i : Nat) : List α → List (Nat × α)
  | [] => []
  | a :: rest => (i, a) :: enumerate (i + 1) rest

def gemini_flash_exp_1 : ModelConfig :=
  ⟨"gemini-2.0-flash-exp", 1, 1, 10, 1000, ["chat", "code", "vision", "function_calling"]⟩

def gemini_15_flash_1 : ModelConfig :=
  ⟨"gemini-1.5-flash", 1, 2, 60, 10000, ["chat", "code", "vision"]⟩

def gemini_15_pro_1 : ModelConfig :=
  ⟨"gemini-1.5-pro", 1, 3, 60, 10000, ["chat", "code", "vision", "function_calling"]⟩

def gemini_flash_exp_2 : ModelConfig :=
  ⟨"gemini-2.0-flash-exp", 2, 4, 10, 1000, ["chat", "code", "vision", "function_calling"]⟩

def gemini_15_flash_2 : ModelConfig :=
  ⟨"gemini-1.5-flash", 2, 5, 60, 10000, ["chat", "code", "vision"]⟩

def gemini_15_pro_2 : ModelConfig :=
  ⟨"gemini-1.5-pro", 2, 6, 60, 10000, ["chat", "code", "vision", "function_calling"]⟩

/-- `_initialize_models`: the six configured (model, billing account)
candidates, sorted ascending by priority. -/
def initialModels : List ModelConfig :=
  sortByKey (fun m => (m.priority : Int))
    [gemini_flash_exp_1, gemini_15_flash_1, gemini_15_pro_1,
     gemini_flash_exp_2, gemini_15_flash_2, gemini_15_pro_2]

/-! ### Manager state and per-candidate operations -/

/-- Outcome of the opaque transport call (`generate_content_async`): text on
success, an error message (the text of the raised exception) on failure. -/
inductive CallOutcome : Type
  | ok (text : String)
  | err (msg : String)
  deriving DecidableEq

/-- One entry of the attempt trail built by `generate_response`. -/
structure AttemptRec : Type where
  model : String
  billing_account : Nat
  attempt : Nat
  success : Bool
  error : Option String
  deriving DecidableEq

/-- The result dict of `generate_response`. -/
structure RouteResult : Type where
  success : Bool
  content : Option String
  model_used : Option String
  billing_used : Option Nat
  attempts : List AttemptRec
  error : Option String
  deriving DecidableEq

/-- The mutable state of `MamaBearModelManager`: the candidate list and the
two per-name `defaultdict`s. -/
structure MState : Type where
  models : List ModelConfig
  model_health : HealthMap
  request_history : HistMap
  deriving DecidableEq

/-- The manager state right after `__init__` (quota-state file absent). -/
def initState : MState := ⟨initialModels, [], []⟩

/-- The pruning step of `_check_rate_limit`: keep request timestamps whose age
`(now - req_time).seconds` is under 60. -/
def pruneHist (now : Nat) (hist : List Nat) : List Nat :=
  hist.filter (fun t => decide ((now - t) % 86400 < 60))

/-- `_check_rate_limit`: prune the candidate's window in place, then report
whether the pruned window is under the per-minute limit. It never appends. -/
def check_rate_limit (st : MState) (now : Nat) (model : ModelConfig) : Bool × MState :=
  (decide ((pruneHist now (getHist st.request_history model.name)).length < model.rate_limit),
   { st with request_history := setEntry st.request_history model.name (pruneHist now (getHist st.request_history model.name)) })

/-- `_check_quota`: lazily reset the daily counter when the stored
`rate_limit_reset` date is older than today, then compare against the daily
quota. -/
def check_quota (st : MState) (t0 now : Nat) (model : ModelConfig) : Bool × MState :=
  let h := getHealth st.model_health t0 model.name
  let h2 := if dateOf h.rate_limit_reset < dateOf now
            then { h with quota_used_today := 0, rate_limit_reset := now }
            else h
  (decide (h2.quota_used_today < model.daily_quota),
   { st with model_health := setEntry st.model_health model.name h2 })

/-- `_track_usage`, run inside `_call_model` after a successful transport
call: append `now` to the request window and increment the daily counter.
(The every-10th-request snapshot write is file I/O, outside the model.) -/
def track_usage (st : MState) (t0 now : Nat) (model : ModelConfig) : MState :=
  let h := getHealth st.model_health t0 model.name
  { st with
    request_history := setEntry st.request_history model.name (getHist st.request_history model.name ++ [now]),
    model_health := setEntry st.model_health model.name { h with quota_used_today := h.quota_used_today + 1 } }

/-- `_update_model_health`: on success reset the record to Available; on
failure increment the error count, store the message, and derive a status
(ERROR above five consecutive errors, else RATE_LIMITED on "rate" with a
one-minute reset, else leave the status as it was). -/
def update_model_health (m : HealthMap) (t0 now : Nat) (name : String)
    (success : Bool) (error : Option String) : HealthMap :=
  let health := getHealth m t0 name
  if success then
    setEntry m name
      { health with status := ModelStatus.available, last_success := now,
                    error_count := 0, last_error := none }
  else
    let h1 := { health with error_count := health.error_count + 1, last_error := error }
    if 5 < h1.error_count then
      setEntry m name { h1 with status := ModelStatus.error }
    else if strContains (lowerStr (error.getD "")) "rate" then
      setEntry m name
        { h1 with status := ModelStatus.rate_limited, rate_limit_reset := now + 60 }
    else
      setEntry m name h1

/-- The failure path of the `generate_response` loop: `_update_model_health`
with `success=False`, then the inline quota classification
(`'quota' in last_error.lower() or '429' in last_error`) overriding the
status to QUOTA_EXCEEDED. -/
def failure_update (m : HealthMap) (t0 now : Nat) (name msg : String) : HealthMap :=
  let m1 := update_model_health m t0 now name false (some msg)
  if strContains (lowerStr msg) "quota" || strContains msg "429" then
    setEntry m1 name { getHealth m1 t0 name with status := ModelStatus.quota_exceeded }
  else m1

/-! ### Ranking and filtering -/

/-- `model_score` inside `_get_available_models` (all values are integral, so
the Python float score is modelled as `Int`). -/
def model_score (mh : HealthMap) (t0 now : Nat) (model : ModelConfig) : Int :=
  let health := getHealth mh t0 model.name
  let base : Int := model.priority
  let s :=
    if health.status = ModelStatus.quota_exceeded then base + 100
    else if health.status = ModelStatus.rate_limited then base + 50
    else if health.status = ModelStatus.error then base + 25 + health.error_count
    else base
  if (now - health.last_success) % 86400 < 300 then s - 5 else s

/-- `_get_available_models`: stable sort ascending by `model_score`. -/
def get_available_models (mh : HealthMap) (t0 now : Nat)
    (models : List ModelConfig) : List ModelConfig :=
  sortByKey (model_score mh t0 now) models

/-- The capability filter of `generate_response`: keep candidates whose
capability list contains every required capability. -/
def capFilter (models : List ModelConfig) (required : List String) : List ModelConfig :=
  models.filter (fun m => required.all (fun cap => m.capabilities.contains cap))

/-- The preference filter of `generate_response`: for "pro" or "flash" keep
only candidates whose name contains that substring; otherwise keep all. -/
def prefFilter (models : List ModelConfig) (pref : String) : List ModelConfig :=
  if pref = "pro" then models.filter (fun m => strContains m.name "pro")
  else if pref = "flash" then models.filter (fun m => strContains m.name "flash")
  else models

/-! ### The routing loop (`generate_response`) -/

/-- `str(last_error)` in the final error message (`None` when no failure was
seen). -/
def optErrString : Option String → String
  | none => "None"
  | some s => s

/-- The fallback content of the complete-failure dict (source emoji and
apostrophe elided). -/
def fallback_content : String :=
  "I am having trouble connecting to my brain right now. Please try again in a moment!"

def mkFailResult (att : List AttemptRec) (le : Option String) : RouteResult :=
  { success := false, content := some fallback_content, model_used := none,
    billing_used := none, attempts := att,
    error := some ("All models failed. Last error: " ++ optErrString le) }

def mkOkResult (c : ModelConfig) (i : Nat) (text : String)
    (att : List AttemptRec) : RouteResult :=
  { success := true, content := some text, model_used := some c.name,
    billing_used := some c.billing_account,
    attempts := att ++ [⟨c.name, c.billing_account, i + 1, true, none⟩],
    error := none }

/-- The body of the `for attempt, model in enumerate(available[:max_retries])`
loop of `generate_response`: skip on a failed rate-limit or quota check
(both of which still mutate their windows), call the transport otherwise,
and fold the outcome into health/quota state. -/
def routeLoop (transport : ModelConfig → String → CallOutcome) (prompt : String)
    (t0 now : Nat) :
    List (Nat × ModelConfig) → MState → List AttemptRec → Option String →
      RouteResult × MState
  | [], st, att, le => (mkFailResult att le, st)
  | (i, c) :: rest, st, att, le =>
    if (check_rate_limit st now c).1 then
      if (check_quota (check_rate_limit st now c).2 t0 now c).1 then
        match transport c prompt with
        | CallOutcome.ok text =>
          let st3 := track_usage (check_quota (check_rate_limit st now c).2 t0 now c).2 t0 now c
          (mkOkResult c i text att,
           { st3 with model_health := update_model_health st3.model_health t0 now c.name true none })
        | CallOutcome.err msg =>
          let st2 := (check_quota (check_rate_limit st now c).2 t0 now c).2
          routeLoop transport prompt t0 now rest
            { st2 with model_health := failure_update st2.model_health t0 now c.name msg }
            (att ++ [⟨c.name, c.billing_account, i + 1, false, some msg⟩]) (some msg)
      else
        routeLoop transport prompt t0 now rest
          (check_quota (check_rate_limit st now c).2 t0 now c).2 att le
    else
      routeLoop transport prompt t0 now rest (check_rate_limit st now c).2 att le

/-- `generate_response`: default the required capabilities to `['chat']`,
filter by capability then preference, rank by health score, and run the
bounded attempt loop. -/
def generate_response (transport : ModelConfig → String → CallOutcome)
    (prompt : String) (t0 now : Nat) (st : MState) (model_preference : String)
    (required_capabilities : Option (List String)) (max_retries : Nat) :
    RouteResult × MState :=
  let required := required_capabilities.getD ["chat"]
  let suitable := prefFilter (capFilter st.models required) model_preference
  let available := get_available_models st.model_health t0 now suitable
  routeLoop transport prompt t0 now (enumerate 0 (available.take max_retries)) st [] none

/-! ### Persistence (`_save_quota_state` / `_load_quota_state`) -/

/-- The per-model payload written by `_save_quota_state`. -/
structure SavedHealth : Type where
  quota_used_today : Nat
  rate_limit_reset : Nat
  status : ModelStatus
  error_count : Nat
  deriving DecidableEq

def mkSaved (h : ModelHealth) : SavedHealth :=
  ⟨h.quota_used_today, h.rate_limit_reset, h.status, h.error_count⟩

/-- `_save_quota_state`: snapshot timestamp plus the quota-relevant fields of
every materialized health record. -/
def save_quota_state (mh : HealthMap) (now : Nat) : Nat × List (String × SavedHealth) :=
  (now, mh.map (fun p => (p.1, mkSaved p.2)))

/-- One iteration of the restore loop of `_load_quota_state`: only model names
already present in the health dict get their `quota_used_today` and
`error_count` restored. -/
def restoreStep (acc : HealthMap) (entry : String × SavedHealth) : HealthMap :=
  match lookupH acc entry.1 with
  | some h => setEntry acc entry.1
      { h with quota_used_today := entry.2.quota_used_today,
               error_count := entry.2.error_count }
  | none => acc

/-- `_load_quota_state`: apply the snapshot only when its embedded date equals
the current date, otherwise discard it. -/
def load_quota_state (mh : HealthMap) (state : Nat × List (String × SavedHealth))
    (now : Nat) : HealthMap :=
  if dateOf state.1 = dateOf now then state.2.foldl restoreStep mh else mh

/-! ### The reconciliation sweep (`_health_check_loop` body) -/

/-- The per-model body of `_health_check_loop`: decay the error count of a
stable Available record, promote RATE_LIMITED once its reset instant has
passed, and promote QUOTA_EXCEEDED (zeroing the counter) only once the stored
reset date is an earlier calendar day. (The periodic snapshot write is file
I/O, outside the model.) -/
def sweepRecord (h : ModelHealth) (now : Nat) : ModelHealth :=
  let h1 := if 0 < h.error_count ∧ h.status = ModelStatus.available then
              (if 300 < (now - h.last_success) % 86400
               then { h with error_count := 0 } else h)
            else h
  let h2 := if h1.status = ModelStatus.rate_limited ∧ h1.rate_limit_reset < now
            then { h1 with status := ModelStatus.available } else h1
  if h2.status = ModelStatus.quota_exceeded ∧
     dateOf h2.rate_limit_reset < dateOf now
  then { h2 with status := ModelStatus.available, quota_used_today := 0 }
  else h2

def health_sweep_model (mh : HealthMap) (t0 now : Nat) (model : ModelConfig) : HealthMap :=
  setEntry mh model.name (sweepRecord (getHealth mh t0 model.name) now)

/-- One pass of the reconciliation sweep over every configured model. -/
def health_check_pass (st : MState) (t0 now : Nat) : MState :=
  let mh2 := st.models.foldl (fun mh model => health_sweep_model mh t0 now model) st.model_health
  { st with model_health := mh2 }

/-! ### The quota manager (`files-research/mama-bear-quota-manager.py`) -/

/-- `ModelStats` of `MamaBearQuotaManager` (the float
`average_response_time` is elided; no claim mentions it). -/
structure ModelStats : Type where
  total_requests : Nat
  successful_requests : Nat
  quota_errors : Nat
  other_errors : Nat
  last_quota_error : Option Nat
  last_success : Option Nat
  cooldown_until : Option Nat
  deriving DecidableEq

/-- The exception branch of `_try_model_with_account`: bump the request
count; on a quota/rate-limit error text, increment `quota_errors` and set the
exponential-backoff cooldown `min(60, 5 * 2 ** min(quota_errors, 5))` minutes
from the already-incremented counter; otherwise count the error as other. -/
def try_model_failure_update (stats : ModelStats) (now : Nat)
    (errText : String) : ModelStats :=
  let s1 := { stats with total_requests := stats.total_requests + 1 }
  if strContains (lowerStr errText) "quota" ||
     strContains (lowerStr errText) "rate limit" then
    { s1 with quota_errors := s1.quota_errors + 1,
              last_quota_error := some now,
              cooldown_until :=
                some (now + 60 * min 60 (5 * 2 ^ min (s1.quota_errors + 1) 5)) }
  else { s1 with other_errors := s1.other_errors + 1 }

/-! ### Basic lemmas about the maps and the operations -/

theorem getHealth_setEntry_self (m : HealthMap) (t0 : Nat) (n : String) (v : ModelHealth) :
    getHealth (setEntry m n v) t0 n = v := by
  rw [getHealth_setEntry, if_pos rfl]

theorem getHealth_setEntry_ne (m : HealthMap) (t0 : Nat) (n : String) (v : ModelHealth)
    (n' : String) (h : n' ≠ n) :
    getHealth (setEntry m n v) t0 n' = getHealth m t0 n' := by
  rw [getHealth_setEntry, if_neg h]

theorem getHealth_update_ne (m : HealthMap) (t0 now : Nat) (name : String)
    (succ : Bool) (err : Option String) (n' : String) (h : n' ≠ name) :
    getHealth (update_model_health m t0 now name succ err) t0 n' = getHealth m t0 n' := by
  simp only [update_model_health]
  split_ifs <;> rw [getHealth_setEntry_ne _ _ _ _ _ h]

theorem getHealth_failure_ne (m : HealthMap) (t0 now : Nat) (name msg : String)
    (n' : String) (h : n' ≠ name) :
    getHealth (failure_update m t0 now name msg) t0 n' = getHealth m t0 n' := by
  simp only [failure_update]
  split_ifs with hov
  · rw [getHealth_setEntry_ne _ _ _ _ _ h, getHealth_update_ne _ _ _ _ _ _ _ h]
  · exact getHealth_update_ne _ _ _ _ _ _ _ h

theorem quota_update_frame (m : HealthMap) (t0 now : Nat) (name : String)
    (succ : Bool) (err : Option String) (n' : String) :
    (getHealth (update_model_health m t0 now name succ err) t0 n').quota_used_today =
      (getHealth m t0 n').quota_used_today := by
  by_cases h : n' = name
  · subst h
    simp only [update_model_health]
    split_ifs <;> rw [getHealth_setEntry_self]
  · rw [getHealth_update_ne _ _ _ _ _ _ _ h]

theorem quota_failure_frame (m : HealthMap) (t0 now : Nat) (name msg : String)
    (n' : String) :
    (getHealth (failure_update m t0 now name msg) t0 n').quota_used_today =
      (getHealth m t0 n').quota_used_today := by
  simp only [failure_update]
  split_ifs with hov
  · by_cases h : n' = name
    · subst h
      rw [getHealth_setEntry_self]
      exact quota_update_frame _ _ _ _ _ _ _
    · rw [getHealth_setEntry_ne _ _ _ _ _ h]
      exact quota_update_frame _ _ _ _ _ _ _
  · exact quota_update_frame _ _ _ _ _ _ _

/-! ### Membership lemmas for the filter/rank/truncate pipeline -/

theorem mem_insertLe {α : Type} {key : α → Int} {x a : α} :
    ∀ {l : List α}, a ∈ insertLe key x l → a = x ∨ a ∈ l := by
  intro l
  induction l with
  | nil => intro h; simp [insertLe] at h; exact Or.inl h
  | cons y ys ih =>
    intro h
    simp only [insertLe] at h
    split_ifs at h with hk
    · rcases List.mem_cons.mp h with h1 | h2
      · exact Or.inr (List.mem_cons.mpr (Or.inl h1))
      · rcases ih h2 with h3 | h4
        · exact Or.inl h3
        · exact Or.inr (List.mem_cons.mpr (Or.inr h4))
    · rcases List.mem_cons.mp h with h1 | h2
      · exact Or.inl h1
      · exact Or.inr h2

theorem mem_sortFold {α : Type} {key : α → Int} :
    ∀ (l : List α) (acc : List α) (a : α),
      a ∈ l.foldl (fun acc x => insertLe key x acc) acc → a ∈ acc ∨ a ∈ l := by
  intro l
  induction l with
  | nil => intro acc a h; exact Or.inl h
  | cons x xs ih =>
    intro acc a h
    rcases ih (insertLe key x acc) a h with h1 | h2
    · rcases mem_insertLe h1 with h3 | h4
      · exact Or.inr (List.mem_cons.mpr (Or.inl h3))
      · exact Or.inl h4
    · exact Or.inr (List.mem_cons.mpr (Or.inr h2))

theorem mem_sortByKey {α : Type} {key : α → Int} {l : List α} {a : α}
    (h : a ∈ sortByKey key l) : a ∈ l := by
  rcases mem_sortFold l [] a h with h1 | h2
  · simp at h1
  · exact h2

theorem mem_enumerate {α : Type} :
    ∀ (l : List α) (i : Nat) (p : Nat × α), p ∈ enumerate i l → p.2 ∈ l := by
  intro l
  induction l with
  | nil => intro i p h; simp [enumerate] at h
  | cons a rest ih =>
    intro i p h
    simp only [enumerate] at h
    rcases List.mem_cons.mp h with h1 | h2
    · subst h1; exact List.mem_cons.mpr (Or.inl rfl)
    · exact List.mem_cons.mpr (Or.inr (ih (i + 1) p h2))

theorem mem_capFilter {models : List ModelConfig} {req : List String}
    {m : ModelConfig} (h : m ∈ capFilter models req) : m ∈ models :=
  List.mem_of_mem_filter h

theorem mem_prefFilter {models : List ModelConfig} {pref : String}
    {m : ModelConfig} (h : m ∈ prefFilter models pref) : m ∈ models := by
  unfold prefFilter at h
  split_ifs at h
  · exact List.mem_of_mem_filter h
  · exact List.mem_of_mem_filter h
  · exact h

/-! ### Claim C1 -/

/-- Claim C1, counterexample: in `_try_model_with_account` the quota-error
counter is incremented before the backoff formula is applied, so a candidate
with `consecutiveErrors = 3` before a fresh quota failure at `now = 0` gets
`cooldown_until = 3600 s = 60 min`, not the `40 min = 2400 s` the claim
requires. -/
theorem c1_counterexample :
    strContains (lowerStr "quota exceeded") "quota" = true ∧
    (try_model_failure_update ⟨0, 0, 3, 0, none, none, none⟩ 0 "quota exceeded").cooldown_until =
      some 3600 ∧
    (3600 : Nat) ≠ 0 + 40 * 60 := by decide

/-- Claim C1, amended: for every failure classified as quota/rate-limit, the
quota manager increments the error counter and then sets
`cooldownUntil = now + min(60, 5 * 2 ^ min(newCount, 5))` minutes, where
`newCount` is the incremented counter; a candidate with 3 prior quota errors
therefore gets `now + 60` minutes (40 minutes corresponds to 2 prior errors). -/
theorem c1_theorem (stats : ModelStats) (now : Nat) (errText : String)
    (hclass : (strContains (lowerStr errText) "quota" ||
               strContains (lowerStr errText) "rate limit") = true) :
    (try_model_failure_update stats now errText).cooldown_until =
      some (now + 60 * min 60 (5 * 2 ^ min (stats.quota_errors + 1) 5)) := by
  simp [try_model_failure_update, hclass]

/-- Witness for C1 at a concrete input: three prior quota errors yield a
60-minute cooldown. -/
theorem c1_witness :
    (strContains (lowerStr "quota exceeded") "quota" ||
     strContains (lowerStr "quota exceeded") "rate limit") = true ∧
    (try_model_failure_update ⟨0, 0, 3, 0, none, none, none⟩ 0 "quota exceeded").cooldown_until =
      some (0 + 60 * min 60 (5 * 2 ^ min (3 + 1) 5)) :=
  ⟨by decide, c1_theorem ⟨0, 0, 3, 0, none, none, none⟩ 0 "quota exceeded" (by decide)⟩

/-! ### Claim C5 -/

/-- Claim C5, counterexample: `_check_rate_limit` can return true without
appending the current time to the request window — on the empty window of the
freshly initialized manager it answers true and leaves the window empty, so
"returns true and appends the current time" is false of the code. The
timestamp is appended only later, by `_track_usage` after a successful call. -/
theorem c5_counterexample :
    (check_rate_limit initState 1000 gemini_flash_exp_1).1 = true ∧
    (1000 : Nat) ∉
      getHist (check_rate_limit initState 1000 gemini_flash_exp_1).2.request_history
        gemini_flash_exp_1.name := by decide

/-- Claim C5, amended: `_check_rate_limit` prunes the candidate's window
(keeping timestamps whose age passes the code's recency test) and returns
true iff the pruned length is strictly below `rate_limit`; it never adds an
entry (the pruned window is a sublist of the old one). The current time is
appended separately by `_track_usage`, only after a successful transport
call. -/
theorem c5_theorem (st : MState) (t0 now : Nat) (model : ModelConfig) :
    (check_rate_limit st now model).1 =
      decide ((pruneHist now (getHist st.request_history model.name)).length <
        model.rate_limit) ∧
    getHist (check_rate_limit st now model).2.request_history model.name =
      pruneHist now (getHist st.request_history model.name) ∧
    List.Sublist (pruneHist now (getHist st.request_history model.name))
      (getHist st.request_history model.name) ∧
    getHist (track_usage st t0 now model).request_history model.name =
      getHist st.request_history model.name ++ [now] := by
  refine ⟨rfl, ?_, ?_, ?_⟩
  · show getEntryD (setEntry st.request_history model.name
      (pruneHist now (getHist st.request_history model.name))) [] model.name = _
    rw [getEntryD_setEntry, if_pos rfl]
  · exact List.filter_sublist _
  · show getEntryD (setEntry st.request_history model.name
      (getHist st.request_history model.name ++ [now])) [] model.name = _
    rw [getEntryD_setEntry, if_pos rfl]

/-! ### Claim C6 -/

/-- Claim C6, counterexample: with preference "pro" the capable candidate
`gemini-2.0-flash-exp` (capabilities include chat) is removed from the
candidate list outright, not merely deprioritized. -/
theorem c6_counterexample :
    gemini_flash_exp_1 ∈ capFilter initialModels ["chat"] ∧
    gemini_flash_exp_1 ∉ prefFilter (capFilter initialModels ["chat"]) "pro" := by decide

/-- Claim C6, amended: when the preference hint is "pro" or "flash",
`generate_response` keeps exactly the candidates whose model name contains
the hint substring — candidates not matching the hint are excluded entirely,
not moved later in the order. -/
theorem c6_theorem (models : List ModelConfig) (m : ModelConfig) :
    (m ∈ prefFilter models "pro" ↔ m ∈ models ∧ strContains m.name "pro" = true) ∧
    (m ∈ prefFilter models "flash" ↔ m ∈ models ∧ strContains m.name "flash" = true) := by
  constructor
  · unfold prefFilter
    rw [if_pos rfl]
    exact List.mem_filter
  · unfold prefFilter
    rw [if_neg (by decide), if_pos rfl]
    exact List.mem_filter

/-! ### Claim C7 -/

/-- Claim C7, counterexample: the two distinct candidates
(`gemini-1.5-pro`, account 1) and (`gemini-1.5-pro`, account 2) share one
health record, because `model_health` is keyed by model name only: recording
a failure against the account-1 candidate changes the record the account-2
candidate reads (its error count goes from 0 to 1). -/
theorem c7_counterexample :
    gemini_15_pro_1 ∈ initialModels ∧
    gemini_15_pro_2 ∈ initialModels ∧
    gemini_15_pro_1 ≠ gemini_15_pro_2 ∧
    gemini_15_pro_1.name = gemini_15_pro_2.name ∧
    (getHealth (update_model_health [] 0 0 gemini_15_pro_1.name false (some "boom"))
      0 gemini_15_pro_2.name).error_count = 1 ∧
    (getHealth ([] : HealthMap) 0 gemini_15_pro_2.name).error_count = 0 := by decide

/-- Claim C7, amended: health records are keyed by model name only. Updates
(`recordSuccess`/`recordFailure` via `_update_model_health`, the failure
classification path, and `_track_usage`) leave every candidate with a
different model name untouched; but two candidates sharing a model name on
different billing accounts share a single record, so the claim's isolation
fails exactly for same-named candidates. -/
theorem c7_theorem (m : HealthMap) (st : MState) (t0 now : Nat)
    (name name' msg : String) (model : ModelConfig) (succ : Bool)
    (err : Option String) (h1 : name' ≠ name) (h2 : name' ≠ model.name) :
    getHealth (update_model_health m t0 now name succ err) t0 name' =
      getHealth m t0 name' ∧
    getHealth (failure_update m t0 now name msg) t0 name' = getHealth m t0 name' ∧
    getHealth (track_usage st t0 now model).model_health t0 name' =
      getHealth st.model_health t0 name' ∧
    getHist (track_usage st t0 now model).request_history name' =
      getHist st.request_history name' := by
  refine ⟨getHealth_update_ne _ _ _ _ _ _ _ h1,
          getHealth_failure_ne _ _ _ _ _ _ h1, ?_, ?_⟩
  · show getHealth (setEntry st.model_health model.name _) t0 name' = _
    exact getHealth_setEntry_ne _ _ _ _ _ h2
  · show getEntryD (setEntry st.request_history model.name _) [] name' = _
    rw [getEntryD_setEntry, if_neg h2]
    rfl

/-- Witness for C7 at concrete distinct names: updating `gemini-1.5-pro`
leaves the `gemini-1.5-flash` record and window unchanged. -/
theorem c7_witness :
    getHealth (update_model_health [] 0 9 "gemini-1.5-pro" false (some "boom")) 0
      "gemini-1.5-flash" = getHealth ([] : HealthMap) 0 "gemini-1.5-flash" ∧
    getHealth (failure_update [] 0 9 "gemini-1.5-pro" "boom") 0 "gemini-1.5-flash" =
      getHealth ([] : HealthMap) 0 "gemini-1.5-flash" ∧
    getHealth (track_usage initState 0 9 gemini_15_pro_1).model_health 0
      "gemini-1.5-flash" = getHealth initState.model_health 0 "gemini-1.5-flash" ∧
    getHist (track_usage initState 0 9 gemini_15_pro_1).request_history
      "gemini-1.5-flash" = getHist initState.request_history "gemini-1.5-flash" :=
  c7_theorem [] initState 0 9 "gemini-1.5-pro" "gemini-1.5-flash" "boom"
    gemini_15_pro_1 false (some "boom") (by decide) (by decide)

/-! ### Claim C10 -/

/-- Claim C10: `generate_response` with `required_capabilities = None`
behaves exactly as with `['chat']`, and since every configured candidate
lists the chat capability, the capability filter excludes no candidate in
that case. -/
theorem c10_theorem (transport : ModelConfig → String → CallOutcome)
    (prompt : String) (t0 now : Nat) (st : MState) (pref : String) (k : Nat) :
    generate_response transport prompt t0 now st pref none k =
      generate_response transport prompt t0 now st pref (some ["chat"]) k ∧
    capFilter initialModels ["chat"] = initialModels :=
  ⟨rfl, by decide⟩

/-! ### Claim C2 -/

/-- Claim C2, counterexample: classification is not independent of the
consecutive-error count. A candidate with 5 prior consecutive errors failing
with text "rate limit exceeded" (contains "rate", no "quota"/429) is set to
ERROR, not RATE_LIMITED, because the error-count branch is tested first. -/
theorem c2_counterexample :
    strContains (lowerStr "rate limit exceeded") "rate" = true ∧
    strContains (lowerStr "rate limit exceeded") "quota" = false ∧
    strContains "rate limit exceeded" "429" = false ∧
    (getHealth (failure_update [("m", ⟨ModelStatus.available, 0, 5, 0, 0, none⟩)]
      0 0 "m" "rate limit exceeded") 0 "m").status = ModelStatus.error ∧
    ModelStatus.error ≠ ModelStatus.rate_limited := by decide

/-- Claim C2, amended: the status a transport failure produces is: text
containing "quota" (case-insensitive) or "429" always maps to QuotaExceeded;
otherwise, if the incremented consecutive-error count exceeds 5 the status is
Errored regardless of the text; otherwise text containing "rate" maps to
RateLimited; otherwise the status is left unchanged (not set to an Other
state). -/
theorem c2_theorem (m : HealthMap) (t0 now : Nat) (name err : String) :
    (getHealth (failure_update m t0 now name err) t0 name).status =
      (if (strContains (lowerStr err) "quota" || strContains err "429") = true then
        ModelStatus.quota_exceeded
       else if 5 < (getHealth m t0 name).error_count + 1 then ModelStatus.error
       else if strContains (lowerStr err) "rate" = true then ModelStatus.rate_limited
       else (getHealth m t0 name).status) := by
  by_cases hov : (strContains (lowerStr err) "quota" || strContains err "429") = true
  · rw [if_pos hov]
    simp only [failure_update]
    rw [if_pos hov, getHealth_setEntry_self]
  · rw [if_neg hov]
    simp only [failure_update]
    rw [if_neg hov]
    simp only [update_model_health, Bool.false_eq_true, if_false, Option.getD_some]
    by_cases h5 : 5 < (getHealth m t0 name).error_count + 1
    · rw [if_pos h5, if_pos h5, getHealth_setEntry_self]
    · rw [if_neg h5, if_neg h5]
      by_cases hr : strContains (lowerStr err) "rate" = true
      · rw [if_pos hr, if_pos hr, getHealth_setEntry_self]
      · rw [if_neg hr, if_neg hr, getHealth_setEntry_self]

/-! ### Claim C9 -/

/-- Claim C9, counterexample: a QUOTA_EXCEEDED candidate whose stored reset
instant (1000) has already passed is NOT promoted by the reconciliation sweep
at `now = 2000` of the same calendar day — promotion happens only when the
stored date is an earlier calendar day, contradicting "promoted once its
cooldownUntil passes, not only at a calendar-day boundary". -/
theorem c9_counterexample :
    (1000 : Nat) < 2000 ∧
    dateOf 1000 = dateOf 2000 ∧
    (getHealth (health_check_pass
        ⟨initialModels,
         [("gemini-2.0-flash-exp", ⟨ModelStatus.quota_exceeded, 0, 0, 500, 1000, none⟩)],
         []⟩ 0 2000).model_health 0 "gemini-2.0-flash-exp").status =
      ModelStatus.quota_exceeded := by decide

/-- Claim C9, amended: the sweep promotes a RateLimited candidate to
Available exactly when its stored reset instant has passed, but promotes a
QuotaExceeded candidate (zeroing its daily counter) only when the stored
reset date is an earlier calendar day; becoming QUOTA_EXCEEDED sets no
cooldown timestamp at all, so a same-day quota cooldown never expires. -/
theorem c9_theorem (mh : HealthMap) (t0 now : Nat) (model : ModelConfig) :
    getHealth (health_sweep_model mh t0 now model) t0 model.name =
      sweepRecord (getHealth mh t0 model.name) now ∧
    (∀ h : ModelHealth,
      (sweepRecord h now).status =
        (match h.status with
         | ModelStatus.rate_limited =>
           if h.rate_limit_reset < now then ModelStatus.available
           else ModelStatus.rate_limited
         | ModelStatus.quota_exceeded =>
           if dateOf h.rate_limit_reset < dateOf now then ModelStatus.available
           else ModelStatus.quota_exceeded
         | s => s) ∧
      (sweepRecord h now).quota_used_today =
        (if h.status = ModelStatus.quota_exceeded ∧
            dateOf h.rate_limit_reset < dateOf now then 0
         else h.quota_used_today)) := by
  constructor
  · exact getHealth_setEntry_self _ _ _ _
  · intro h
    constructor
    · cases hst : h.status <;>
        simp [sweepRecord, hst] <;> split_ifs <;> simp_all
    · cases hst : h.status <;>
        simp [sweepRecord, hst] <;> split_ifs <;> simp_all

/-! ### Claim C3 -/

theorem getHealth_of_lookupH {m : HealthMap} {t0 : Nat} {n : String}
    {v : ModelHealth} (h : lookupH m n = some v) : getHealth m t0 n = v :=
  getEntryD_of_lookupH h

theorem restore_fold (mh : HealthMap) (t0 : Nat) :
    ∀ (l : List (String × SavedHealth)) (acc : HealthMap),
      (∀ e ∈ l, ∃ h : ModelHealth, lookupH mh e.1 = some h ∧
        e.2.quota_used_today = h.quota_used_today ∧ e.2.error_count = h.error_count) →
      (∀ nm, (getHealth acc t0 nm).quota_used_today =
               (getHealth mh t0 nm).quota_used_today ∧
             (getHealth acc t0 nm).error_count = (getHealth mh t0 nm).error_count) →
      ∀ nm, (getHealth (l.foldl restoreStep acc) t0 nm).quota_used_today =
              (getHealth mh t0 nm).quota_used_today ∧
            (getHealth (l.foldl restoreStep acc) t0 nm).error_count =
              (getHealth mh t0 nm).error_count := by
  intro l
  induction l with
  | nil => intro acc _ hacc nm; exact hacc nm
  | cons e rest ih =>
    intro acc hl hacc nm
    simp only [List.foldl_cons]
    refine ih (restoreStep acc e)
      (fun e2 he2 => hl e2 (List.mem_cons_of_mem _ he2)) ?_ nm
    intro nm2
    obtain ⟨h, hlook, hq, he⟩ := hl e (List.mem_cons_self _ _)
    unfold restoreStep
    cases hla : lookupH acc e.1 with
    | none => exact hacc nm2
    | some hacc1 =>
      by_cases hn : nm2 = e.1
      · subst hn
        rw [getHealth_setEntry_self]
        constructor
        · show e.2.quota_used_today = _
          rw [hq, getHealth_of_lookupH hlook]
        · show e.2.error_count = _
          rw [he, getHealth_of_lookupH hlook]
      · rw [getHealth_setEntry_ne _ _ _ _ _ hn]
        exact hacc nm2

/-- Claim C3: restoring a snapshot taken the same calendar day reproduces
`usedToday` (`quota_used_today`) and `consecutiveErrors` (`error_count`)
exactly, for every model name (the health dict is keyed per model name and,
like a Python dict, has no duplicate keys — hence the `Nodup` hypothesis).
The restore loop only touches names already present in the current dict. -/
theorem c3_theorem (mh : HealthMap) (t0 t1 t2 : Nat)
    (hnd : (mh.map Prod.fst).Nodup) (hday : dateOf t1 = dateOf t2)
    (name : String) :
    (getHealth (load_quota_state mh (save_quota_state mh t1) t2) t0 name).quota_used_today =
      (getHealth mh t0 name).quota_used_today ∧
    (getHealth (load_quota_state mh (save_quota_state mh t1) t2) t0 name).error_count =
      (getHealth mh t0 name).error_count := by
  simp only [load_quota_state, save_quota_state]
  rw [if_pos hday]
  refine restore_fold mh t0 _ mh ?_ (fun nm => ⟨rfl, rfl⟩) name
  intro e he
  obtain ⟨⟨n, hh⟩, hmem, rfl⟩ := List.mem_map.mp he
  exact ⟨hh, lookupH_of_nodup mh hnd n hh hmem, rfl, rfl⟩

/-- Witness for C3 at a concrete one-record health map snapshotted at
`t = 100` and restored at `t = 200` of the same day. -/
theorem c3_witness :
    (getHealth (load_quota_state
        [("gemini-1.5-flash", ⟨ModelStatus.available, 0, 2, 7, 0, none⟩)]
        (save_quota_state
          [("gemini-1.5-flash", ⟨ModelStatus.available, 0, 2, 7, 0, none⟩)] 100) 200)
      0 "gemini-1.5-flash").quota_used_today =
      (getHealth [("gemini-1.5-flash", ⟨ModelStatus.available, 0, 2, 7, 0, none⟩)]
        0 "gemini-1.5-flash").quota_used_today ∧
    (getHealth (load_quota_state
        [("gemini-1.5-flash", ⟨ModelStatus.available, 0, 2, 7, 0, none⟩)]
        (save_quota_state
          [("gemini-1.5-flash", ⟨ModelStatus.available, 0, 2, 7, 0, none⟩)] 100) 200)
      0 "gemini-1.5-flash").error_count =
      (getHealth [("gemini-1.5-flash", ⟨ModelStatus.available, 0, 2, 7, 0, none⟩)]
        0 "gemini-1.5-flash").error_count :=
  c3_theorem [("gemini-1.5-flash", ⟨ModelStatus.available, 0, 2, 7, 0, none⟩)]
    0 100 200 (by decide) (by decide) "gemini-1.5-flash"

/-! ### Claim C8 -/

theorem routeLoop_attempts (transport : ModelConfig → String → CallOutcome)
    (prompt : String) (t0 now : Nat) :
    ∀ (l : List (Nat × ModelConfig)) (st : MState) (att : List AttemptRec)
      (le : Option String) (a : AttemptRec),
      a ∈ (routeLoop transport prompt t0 now l st att le).1.attempts →
      a ∈ att ∨ ∃ p, p ∈ l ∧ a.model = p.2.name := by
  intro l
  induction l with
  | nil =>
    intro st att le a ha
    exact Or.inl ha
  | cons p rest ih =>
    obtain ⟨i, c⟩ := p
    intro st att le a ha
    simp only [routeLoop] at ha
    by_cases hrl : (check_rate_limit st now c).1 = true
    · rw [if_pos hrl] at ha
      by_cases hcq : (check_quota (check_rate_limit st now c).2 t0 now c).1 = true
      · rw [if_pos hcq] at ha
        cases htr : transport c prompt with
        | ok text =>
          rw [htr] at ha
          simp only [mkOkResult, List.mem_append, List.mem_singleton] at ha
          rcases ha with h1 | h2
          · exact Or.inl h1
          · subst h2
            exact Or.inr ⟨(i, c), List.mem_cons_self _ _, rfl⟩
        | err msg =>
          rw [htr] at ha
          rcases ih _ _ _ a ha with h1 | ⟨q, hq, hm⟩
          · rcases List.mem_append.mp h1 with h2 | h3
            · exact Or.inl h2
            · rw [List.mem_singleton.mp h3]
              exact Or.inr ⟨(i, c), List.mem_cons_self _ _, rfl⟩
          · exact Or.inr ⟨q, List.mem_cons_of_mem _ hq, hm⟩
      · rw [if_neg hcq] at ha
        rcases ih _ _ _ a ha with h1 | ⟨q, hq, hm⟩
        · exact Or.inl h1
        · exact Or.inr ⟨q, List.mem_cons_of_mem _ hq, hm⟩
    · rw [if_neg hrl] at ha
      rcases ih _ _ _ a ha with h1 | ⟨q, hq, hm⟩
      · exact Or.inl h1
      · exact Or.inr ⟨q, List.mem_cons_of_mem _ hq, hm⟩

/-- Claim C8, counterexample: with attempt budget 1, the top-ranked candidate
`gemini-2.0-flash-exp` is skipped by a full rate window (10 timestamps, limit
10), no transport call is made, yet the budget is exhausted and the route
fails — while the same request with budget 2 succeeds on the next candidate.
A skipped candidate therefore does consume the `max_retries` budget,
contradicting the claim. -/
theorem c8_counterexample :
    (generate_response (fun _ _ => CallOutcome.ok "hello") "hi" 0 0
      ⟨initialModels, [], [("gemini-2.0-flash-exp", List.replicate 10 0)]⟩
      "auto" none 1).1.success = false ∧
    (generate_response (fun _ _ => CallOutcome.ok "hello") "hi" 0 0
      ⟨initialModels, [], [("gemini-2.0-flash-exp", List.replicate 10 0)]⟩
      "auto" none 1).1.attempts = [] ∧
    (generate_response (fun _ _ => CallOutcome.ok "hello") "hi" 0 0
      ⟨initialModels, [], [("gemini-2.0-flash-exp", List.replicate 10 0)]⟩
      "auto" none 2).1.success = true := by decide

/-- Claim C8, amended: the attempt budget is applied by truncating the ranked
candidate list to its first `max_retries` elements before the loop, so every
entry of the attempt trail names one of those first `max_retries` candidates;
a candidate skipped by the rate or quota check still occupies one budget
slot, and no transport attempt ever reaches a later-ranked candidate. -/
theorem c8_theorem (transport : ModelConfig → String → CallOutcome)
    (prompt : String) (t0 now : Nat) (st : MState) (pref : String)
    (caps : Option (List String)) (k : Nat) :
    ∀ a ∈ (generate_response transport prompt t0 now st pref caps k).1.attempts,
      ∃ c, c ∈ (get_available_models st.model_health t0 now
          (prefFilter (capFilter st.models (caps.getD ["chat"])) pref)).take k ∧
        a.model = c.name := by
  intro a ha
  simp only [generate_response] at ha
  rcases routeLoop_attempts transport prompt t0 now _ st [] none a ha with
    h1 | ⟨p, hp, hm⟩
  · simp at h1
  · exact ⟨p.2, mem_enumerate _ 0 p hp, hm⟩

/-- Witness for C8: a successful single-attempt run whose sole trail entry
names the single truncated candidate. -/
theorem c8_witness :
    ∃ c, c ∈ (get_available_models initState.model_health 0 0
        (prefFilter (capFilter initState.models ["chat"]) "auto")).take 1 ∧
      (⟨"gemini-2.0-flash-exp", 1, 1, true, none⟩ : AttemptRec).model = c.name :=
  c8_theorem (fun _ _ => CallOutcome.ok "hello") "hi" 0 0 initState "auto" none 1
    ⟨"gemini-2.0-flash-exp", 1, 1, true, none⟩ (by decide)

/-! ### Claim C4 -/

/-- The claimed daily-quota invariant: every configured candidate's daily
counter is within its daily quota. -/
abbrev QuotaInv (models : List ModelConfig) (mh : HealthMap) (t0 : Nat) : Prop :=
  ∀ m ∈ models, (getHealth mh t0 m.name).quota_used_today ≤ m.daily_quota

theorem quotaInv_check_quota (models : List ModelConfig) (st : MState)
    (t0 now : Nat) (c : ModelConfig) (hinv : QuotaInv models st.model_health t0) :
    QuotaInv models (check_quota st t0 now c).2.model_health t0 := by
  intro m2 hm2
  simp only [check_quota]
  rw [getHealth_setEntry]
  by_cases hn : m2.name = c.name
  · rw [if_pos hn]
    split_ifs with hstale
    · simp
    · have h3 := hinv m2 hm2
      rw [hn] at h3
      exact h3
  · rw [if_neg hn]
    exact hinv m2 hm2

theorem mem_get_available {mh : HealthMap} {t0 now : Nat}
    {models : List ModelConfig} {m : ModelConfig}
    (h : m ∈ get_available_models mh t0 now models) : m ∈ models :=
  mem_sortByKey h

theorem routeLoop_preserves (transport : ModelConfig → String → CallOutcome)
    (prompt : String) (t0 now : Nat) :
    ∀ (l : List (Nat × ModelConfig)) (st : MState) (att : List AttemptRec)
      (le : Option String),
      (routeLoop transport prompt t0 now l st att le).2.models = st.models ∧
      ((∀ p ∈ l, ∀ m2 ∈ st.models, m2.name = p.2.name →
          p.2.daily_quota = m2.daily_quota) →
        QuotaInv st.models st.model_health t0 →
        QuotaInv st.models (routeLoop transport prompt t0 now l st att le).2.model_health t0) := by
  intro l
  induction l with
  | nil => intro st att le; exact ⟨rfl, fun _ h => h⟩
  | cons p rest ih =>
    obtain ⟨i, c⟩ := p
    intro st att le
    by_cases hrl : (check_rate_limit st now c).1 = true
    · by_cases hcq : (check_quota (check_rate_limit st now c).2 t0 now c).1 = true
      · cases htr : transport c prompt with
        | ok text =>
          simp only [routeLoop]
          rw [if_pos hrl, if_pos hcq, htr]
          refine ⟨rfl, fun hl hinv m2 hm2 => ?_⟩
          show (getHealth (update_model_health
            (track_usage (check_quota (check_rate_limit st now c).2 t0 now c).2
              t0 now c).model_health t0 now c.name true none) t0 m2.name).quota_used_today ≤
            m2.daily_quota
          rw [quota_update_frame]
          show (getHealth (setEntry
            (check_quota (check_rate_limit st now c).2 t0 now c).2.model_health c.name _)
            t0 m2.name).quota_used_today ≤ m2.daily_quota
          rw [getHealth_setEntry]
          by_cases hn : m2.name = c.name
          · rw [if_pos hn]
            have hlt : (getHealth
                (check_quota (check_rate_limit st now c).2 t0 now c).2.model_health
                t0 c.name).quota_used_today < c.daily_quota := by
              have := of_decide_eq_true hcq
              simpa [check_quota, getHealth_setEntry_self] using this
            have hdq : c.daily_quota = m2.daily_quota :=
              hl (i, c) (List.mem_cons_self _ _) m2 hm2 hn
            calc (getHealth
                (check_quota (check_rate_limit st now c).2 t0 now c).2.model_health
                t0 c.name).quota_used_today + 1 ≤ c.daily_quota := hlt
              _ = m2.daily_quota := hdq
          · rw [if_neg hn]
            exact quotaInv_check_quota st.models _ t0 now c hinv m2 hm2
        | err msg =>
          simp only [routeLoop]
          rw [if_pos hrl, if_pos hcq, htr]
          have ihe := ih
            { (check_quota (check_rate_limit st now c).2 t0 now c).2 with
              model_health :=
                failure_update
                  (check_quota (check_rate_limit st now c).2 t0 now c).2.model_health
                  t0 now c.name msg }
            (att ++ [⟨c.name, c.billing_account, i + 1, false, some msg⟩]) (some msg)
          constructor
          · exact ihe.1
          · intro hl hinv
            refine ihe.2
              (fun q hq m2 hm2 hname => hl q (List.mem_cons_of_mem _ hq) m2 hm2 hname)
              (fun m2 hm2 => ?_)
            show (getHealth (failure_update
              (check_quota (check_rate_limit st now c).2 t0 now c).2.model_health
              t0 now c.name msg) t0 m2.name).quota_used_today ≤ m2.daily_quota
            rw [quota_failure_frame]
            exact quotaInv_check_quota st.models _ t0 now c hinv m2 hm2
      · simp only [routeLoop]
        rw [if_pos hrl, if_neg hcq]
        have ihq := ih (check_quota (check_rate_limit st now c).2 t0 now c).2 att le
        exact ⟨ihq.1, fun hl hinv => ihq.2
          (fun q hq m2 hm2 hname => hl q (List.mem_cons_of_mem _ hq) m2 hm2 hname)
          (quotaInv_check_quota st.models _ t0 now c hinv)⟩
    · simp only [routeLoop]
      rw [if_neg hrl]
      have ihr := ih (check_rate_limit st now c).2 att le
      exact ⟨ihr.1, fun hl hinv => ihr.2
        (fun q hq m2 hm2 hname => hl q (List.mem_cons_of_mem _ hq) m2 hm2 hname) hinv⟩

/-- Claim C4: within a single route call (`generate_response`), the daily
counter of every configured candidate stays within its daily quota:
`_check_quota` (which lazily resets a stale counter) gates every transport
call and `_track_usage` increments only after a success, so the invariant
`usedToday ≤ requestsPerDay` is preserved (candidates sharing a model name
share one counter, whence the same-name-same-quota hypothesis, true of the
configured registry); the candidate list is also preserved, so the
preservation composes over any sequence of route calls. -/
theorem c4_theorem (transport : ModelConfig → String → CallOutcome)
    (prompt : String) (t0 now : Nat) (st : MState) (pref : String)
    (caps : Option (List String)) (k : Nat)
    (hq : ∀ m1 ∈ st.models, ∀ m2 ∈ st.models, m1.name = m2.name →
      m1.daily_quota = m2.daily_quota)
    (hinv : QuotaInv st.models st.model_health t0) :
    (generate_response transport prompt t0 now st pref caps k).2.models = st.models ∧
    QuotaInv st.models
      (generate_response transport prompt t0 now st pref caps k).2.model_health t0 := by
  have h := routeLoop_preserves transport prompt t0 now
    (enumerate 0 ((get_available_models st.model_health t0 now
      (prefFilter (capFilter st.models (caps.getD ["chat"])) pref)).take k))
    st [] none
  refine ⟨h.1, h.2 ?_ hinv⟩
  intro p hp m2 hm2 hname
  have h1 := mem_enumerate _ 0 p hp
  have h2 : p.2 ∈ st.models :=
    mem_capFilter (mem_prefFilter (mem_get_available (List.take_subset _ _ h1)))
  exact hq p.2 h2 m2 hm2 hname.symm

/-- Witness for C4: six attempts against the freshly initialized manager with
an always-succeeding transport preserve the quota invariant. -/
theorem c4_witness :
    (generate_response (fun _ _ => CallOutcome.ok "hello") "hi" 0 0 initState
      "auto" none 6).2.models = initState.models ∧
    QuotaInv initState.models
      (generate_response (fun _ _ => CallOutcome.ok "hello") "hi" 0 0 initState
        "auto" none 6).2.model_health 0 :=
  c4_theorem (fun _ _ => CallOutcome.ok "hello") "hi" 0 0 initState "auto" none 6
    (by decide) (by decide)

end MamaBear
